import Mathlib

/-!
Verification of the expression-reconstruction engine of `xdis/opcodes/format.py`.

The Python module formats stack-machine instructions back into source-level
expressions.  Each formatting rule receives a window of instructions (index 0
is the instruction being decorated, higher indices are program-order
predecessors) and returns a `(text, start_offset)` pair, where empty text
signals "no reconstruction".

The shallow embedding below models:
  * Python values appearing in the `argval` field as `PyVal`;
  * instructions as the record `Instruction`;
  * the per-version opcode classification as `Opc`;
  * Python list indexing (which can raise `IndexError`) as `Except Unit`,
    where `Except.error ()` stands for a raised exception;
  * each formatting rule as a Lean function translated clause by clause
    from the source.
-/

/-- A fragment of Python's dynamic values, large enough for the `argval`
field uses in `format.py`: integers (argument counts), strings (names), and
`None`. -/
inductive PyVal where
  | int : Int → PyVal
  | str : String → PyVal
  | none : PyVal
deriving DecidableEq, Repr

/-- Python `str()` of a `PyVal`, as applied by f-string interpolation. -/
def pyStr : PyVal → String
  | PyVal.int n => toString n
  | PyVal.str s => s
  | PyVal.none => "None"

/-- Python `repr()` of a `PyVal` (strings gain quotes).  `repr` of these
values never raises. -/
def pyRepr : PyVal → String
  | PyVal.int n => toString n
  | PyVal.str s => "\x27" ++ s ++ "\x27"
  | PyVal.none => "None"

/-- One decoded instruction, as consumed by the formatting rules.  Fields
mirror the attributes read by `format.py`: `opcode`, `opname`, `argval`,
`argrepr`, `offset`, `start_offset`, `is_jump_target`, `tos_str`.
`argrepr` is a plain string (the spec lists rendered operand text as a
required field); `start_offset` and `tos_str` are nullable. -/
structure Instruction where
  opcode : Nat
  opname : String
  argval : PyVal
  argrepr : String
  offset : Int
  start_offset : Option Int
  is_jump_target : Bool
  tos_str : Option String
deriving DecidableEq, Repr

/-- The opcode classification sets consulted by the rules, plus the bytecode
version tuple, mirroring the `opc` module object. -/
structure Opc where
  operator_set : List Nat
  VARGS_OPS : List Nat
  NARGS_OPS : List Nat
  NAME_OPS : List Nat
  CONST_OPS : List Nat
  LOCAL_OPS : List Nat
  version_tuple : Nat × Nat
deriving DecidableEq, Repr

/-- Python list indexing `instructions[i]`: `Except.error ()` models a raised
`IndexError`. -/
def pyIndex (instructions : List Instruction) (i : Nat) : Except Unit Instruction :=
  match instructions.get? i with
  | Option.some inst => Except.ok inst
  | Option.none => Except.error ()

/-- Using a `PyVal` as a loop/argument count: a non-integer count would make
the Python comparison `arg_count > 0` raise `TypeError`. -/
def pyValAsInt : PyVal → Except Unit Int
  | PyVal.int n => Except.ok n
  | _ => Except.error ()

/-- `opc.version_tuple >= (3, 6)` — Python tuple comparison on the version. -/
def version_ge_36 (v : Nat × Nat) : Bool :=
  decide (3 < v.1 ∨ (v.1 = 3 ∧ 6 ≤ v.2))

/-- Python `s.startswith(pre)`, computed on the character data (Lean's
built-in `String.startsWith` is byte-position based and does not reduce
in the kernel). -/
def py_startswith (s pre : String) : Bool :=
  pre.data.isPrefixOf s.data

/-- `inst.tos_str if inst.tos_str else inst.argrepr`: Python truthiness, so a
`None` or empty pushed-value text falls back to `argrepr`. -/
def truthy_text (inst : Instruction) : String :=
  match inst.tos_str with
  | Option.some s => if s = "" then inst.argrepr else s
  | Option.none => inst.argrepr

/-- `get_instruction_arg(inst, argval)` from the source, for the call sites
that pass `argval` explicitly: `inst.tos_str if inst.tos_str is not None else
argval`. -/
def get_instruction_arg (inst : Instruction) (argval : String) : String :=
  match inst.tos_str with
  | Option.some s => s
  | Option.none => argval

/-- `safe_repr` from the source, with the two renderings of the object made
explicit: `repr_result` is the outcome of `repr(obj)` (`Except.error ()` when
that raised an `Exception`, which the `try`/`except` catches), and
`object_repr` is the generic fallback `object.__repr__(obj)`, which always
yields a string.  The result is truncated to `max_len` characters with an
ellipsis suffix when too long. -/
def safe_repr (repr_result : Except Unit String) (object_repr : String)
    (max_len : Nat) : String :=
  let result :=
    match repr_result with
    | Except.ok s => s
    | Except.error _ => object_repr
  if max_len < result.length then result.take max_len ++ "..." else result

/-- `safe_repr(v)` applied to a `PyVal` (whose `repr` never raises), at the
source's default `max_len = 20`. -/
def pySafeRepr (v : PyVal) : String :=
  safe_repr (Except.ok (pyRepr v)) "<object>" 20

/-- Loop body of `skip_cache`: walks the suffix `instructions.drop i`, with
`n` the length of the whole list.  The guard mirrors the source line
`while instructions[i].opname == "CACHE" and i < n` — indexing happens
before the bound test, so exhausting the list is an `IndexError`, modeled
as `Option.none`. -/
def skip_cache_aux (n : Nat) : List Instruction → Nat → Option Nat
  | [], _ => Option.none
  | inst :: rest, i =>
    if inst.opname = "CACHE" ∧ i < n then skip_cache_aux n rest (i + 1)
    else Option.some i

/-- `skip_cache(instructions, i)` from the source.  `Option.none` models the
`IndexError` raised when every instruction from `i` on is `CACHE` (the
`i < n` test comes after the indexing, so it never prevents the overrun). -/
def skip_cache (instructions : List Instruction) (i : Nat) : Option Nat :=
  skip_cache_aux instructions.length (instructions.drop i) i

/-- Loop body of the inline `while instructions[i].opname == "CACHE"` loops
of `extended_format_infix_binary_op` (no bound test at all in the source). -/
def skip_cache_raw_aux : List Instruction → Nat → Option Nat
  | [], _ => Option.none
  | inst :: rest, i =>
    if inst.opname = "CACHE" then skip_cache_raw_aux rest (i + 1)
    else Option.some i

/-- The inline CACHE-skipping loops of `extended_format_infix_binary_op`,
starting at index `i`; `Option.none` models the `IndexError` on overrun. -/
def skip_cache_raw (instructions : List Instruction) (i : Nat) : Option Nat :=
  skip_cache_raw_aux (instructions.drop i) i

/-- Helper for the `for i in range(1, len(instructions))` scans: first index
`k ≥ 1` whose instruction has byte offset `target`, scanning `instructions`
from index 1; the second component of the state is the running index. -/
def find_offset_aux (target : Int) : List Instruction → Nat → Option Nat
  | [], _ => Option.none
  | inst :: rest, k =>
    if inst.offset = target then Option.some k
    else find_offset_aux target rest (k + 1)

/-- Result of the source's `for i in range(1, len(instructions)): if
instructions[i].offset == arg1_start_offset: break` scan: on a break the loop
index where the match occurred; with no break Python leaves `i` at the last
index scanned (`len - 1`), or unchanged (`i0`) when the range is empty. -/
def offset_scan (instructions : List Instruction) (target : Int) (i0 : Nat) : Nat :=
  match find_offset_aux target (instructions.drop 1) 1 with
  | Option.some k => k
  | Option.none => if 2 ≤ instructions.length then instructions.length - 1 else i0

/-- `extended_format_binary_op(opc, instructions, fmt_str)` from the source.
`fmt` models the two-slot format string `fmt_str % (arg2, arg1)`.  Indexing
and the `skip_cache` calls can raise, hence the `Except`. -/
def extended_format_binary_op (opc : Opc) (instructions : List Instruction)
    (fmt : String → String → String) : Except Unit (String × Option Int) :=
  match skip_cache instructions 1 with
  | Option.none => Except.error ()
  | Option.some i0 =>
    match pyIndex instructions i0 with
    | Except.error e => Except.error e
    | Except.ok stack_inst1 =>
      let arg1 : Option String := stack_inst1.tos_str
      if arg1 ≠ Option.none ∨ stack_inst1.opcode ∈ opc.operator_set then
        let arg1s : String :=
          match arg1 with
          | Option.none => stack_inst1.argrepr
          | Option.some s => s
        let i1 : Nat :=
          match stack_inst1.start_offset with
          | Option.none => i0
          | Option.some target => offset_scan instructions target i0
        match skip_cache instructions (i1 + 1) with
        | Option.none => Except.error ()
        | Option.some j0 =>
          match pyIndex instructions j0 with
          | Except.error e => Except.error e
          | Except.ok stack_inst2 =>
            if stack_inst1.opcode ∈ opc.operator_set
                ∧ stack_inst2.opcode ∈ opc.operator_set then
              let arg2 := get_instruction_arg stack_inst2 stack_inst2.argrepr
              Except.ok (fmt arg2 arg1s, stack_inst2.start_offset)
            else
              match stack_inst2.start_offset with
              | Option.some so =>
                let arg2 := get_instruction_arg stack_inst2 stack_inst2.argrepr
                let arg2b := if arg2 = "" then "..." else arg2
                Except.ok (fmt arg2b arg1s, Option.some so)
              | Option.none =>
                Except.ok (fmt "..." arg1s, Option.none)
      else
        Except.ok ("", Option.none)

/-- `extended_format_infix_binary_op(opc, instructions, op_str)` from the
source.  Note the source reads `instructions[1].argrepr` and
`instructions[1].start_offset` at literal index 1 (not the CACHE-skipped
index), and parenthesizes `arg1`/`arg2` when they come from `tos_str`. -/
def extended_format_infix_binary_op (opc : Opc) (instructions : List Instruction)
    (op_str : String) : Except Unit (String × Option Int) :=
  match skip_cache_raw instructions 1 with
  | Option.none => Except.error ()
  | Option.some i0 =>
    match pyIndex instructions i0 with
    | Except.error e => Except.error e
    | Except.ok stack_arg1 =>
      let arg1 : Option String := stack_arg1.tos_str
      if arg1 ≠ Option.none ∨ stack_arg1.opcode ∈ opc.operator_set then
        match pyIndex instructions 1 with
        | Except.error e => Except.error e
        | Except.ok inst_at_1 =>
          let arg1s : String :=
            match arg1 with
            | Option.none => inst_at_1.argrepr
            | Option.some s => "(" ++ s ++ ")"
          let i1 : Nat :=
            match inst_at_1.start_offset with
            | Option.none => i0
            | Option.some target => offset_scan instructions target i0
          match skip_cache_raw instructions (i1 + 1) with
          | Option.none => Except.error ()
          | Option.some j0 =>
            match pyIndex instructions j0 with
            | Except.error e => Except.error e
            | Except.ok instj =>
              match pyIndex instructions i1 with
              | Except.error e => Except.error e
              | Except.ok insti =>
                if instj.opcode ∈ opc.operator_set
                    ∧ insti.opcode ∈ opc.operator_set then
                  let arg2 : String :=
                    match instj.tos_str with
                    | Option.some s => s
                    | Option.none => instj.argrepr
                  Except.ok (arg2 ++ op_str ++ arg1s, instj.start_offset)
                else
                  match instj.start_offset with
                  | Option.some so =>
                    let arg2 : String :=
                      match instj.tos_str with
                      | Option.some s => s
                      | Option.none => instj.argrepr
                    let arg2b := if arg2 = "" then "..." else "(" ++ arg2 ++ ")"
                    Except.ok (arg2b ++ op_str ++ arg1s, Option.some so)
                  | Option.none =>
                    Except.ok ("..." ++ op_str ++ arg1s, Option.none)
      else
        Except.ok ("", Option.none)

/-- `extended_format_store_op(opc, instructions)` from the source.  The inner
`Option` encodes the source's early `return "", start_offset` for a
variable-arity predecessor without pushed-value text.  In the in-place branch
with `tos_str` absent the source returns the raw `argval` object; the
embedding applies Python's later stringification to keep the component a
string. -/
def extended_format_store_op (opc : Opc) (instructions : List Instruction) :
    Except Unit (String × Option Int) :=
  match pyIndex instructions 0 with
  | Except.error e => Except.error e
  | Except.ok inst =>
    match pyIndex instructions 1 with
    | Except.error e => Except.error e
    | Except.ok prev_inst =>
      let start_offset : Option Int := Option.some prev_inst.offset
      if prev_inst.opname = "IMPORT_NAME" then
        Except.ok (pyStr inst.argval ++ " = import_module(" ++ pyStr inst.argval ++ ")",
          start_offset)
      else if prev_inst.opname = "IMPORT_FROM" then
        Except.ok (pyStr inst.argval ++ " = import_module(" ++ pyStr prev_inst.argval ++ ")",
          start_offset)
      else if prev_inst.opcode ∈ opc.operator_set then
        let argval0 : Option String :=
          if prev_inst.opname = "LOAD_CONST" then Option.some (pySafeRepr prev_inst.argval)
          else if (prev_inst.opcode ∈ opc.VARGS_OPS ∨ prev_inst.opcode ∈ opc.NARGS_OPS)
                ∧ prev_inst.tos_str = Option.none then Option.none
          else Option.some (pyStr prev_inst.argval)
        match argval0 with
        | Option.none => Except.ok ("", start_offset)
        | Option.some argval1 =>
          let argval2 := get_instruction_arg prev_inst argval1
          if py_startswith prev_inst.opname "INPLACE_" then
            Except.ok (argval2, prev_inst.start_offset)
          else
            Except.ok (pyStr inst.argval ++ " = " ++ argval2, prev_inst.start_offset)
      else
        Except.ok ("", start_offset)

/-- `extended_format_unary_op(opc, instructions, fmt_str)` from the source;
`fmt` models the one-slot format string. -/
def extended_format_unary_op (opc : Opc) (instructions : List Instruction)
    (fmt : String → String) : Except Unit (String × Option Int) :=
  match pyIndex instructions 1 with
  | Except.error e => Except.error e
  | Except.ok stack_arg =>
    let start_offset := stack_arg.start_offset
    match stack_arg.tos_str with
    | Option.some s => Except.ok (fmt s, start_offset)
    | Option.none =>
      if stack_arg.opcode ∈ opc.operator_set then
        Except.ok (fmt stack_arg.argrepr, start_offset)
      else
        Except.ok ("", Option.none)

/-- `extended_format_RETURN_VALUE` from the source. -/
def extended_format_RETURN_VALUE (opc : Opc) (instructions : List Instruction) :
    Except Unit (String × Option Int) :=
  extended_format_unary_op opc instructions (fun s => "return " ++ s)

/-- `extended_format_UNARY_INVERT` from the source. -/
def extended_format_UNARY_INVERT (opc : Opc) (instructions : List Instruction) :
    Except Unit (String × Option Int) :=
  extended_format_unary_op opc instructions (fun s => "~(" ++ s ++ ")")

/-- `extended_format_UNARY_NEGATIVE` from the source. -/
def extended_format_UNARY_NEGATIVE (opc : Opc) (instructions : List Instruction) :
    Except Unit (String × Option Int) :=
  extended_format_unary_op opc instructions (fun s => "-(" ++ s ++ ")")

/-- `extended_format_UNARY_NOT` from the source. -/
def extended_format_UNARY_NOT (opc : Opc) (instructions : List Instruction) :
    Except Unit (String × Option Int) :=
  extended_format_unary_op opc instructions (fun s => "not (" ++ s ++ ")")

/-- `extended_format_ATTR(opc, instructions)` from the source.  The source
function ends without a `return` statement when the predecessor is not a
name/const/local load, so Python yields `None`: the result is
`Option (String × Int)`, with `Option.none` for that fall-through. -/
def extended_format_ATTR (opc : Opc) (instructions : List Instruction) :
    Except Unit (Option (String × Int)) :=
  match pyIndex instructions 1 with
  | Except.error e => Except.error e
  | Except.ok inst1 =>
    if inst1.opcode ∈ opc.NAME_OPS ∨ inst1.opcode ∈ opc.CONST_OPS
        ∨ inst1.opcode ∈ opc.LOCAL_OPS then
      match pyIndex instructions 0 with
      | Except.error e => Except.error e
      | Except.ok inst0 =>
        Except.ok (Option.some (inst1.argrepr ++ "." ++ inst0.argrepr, inst1.offset))
    else
      Except.ok Option.none

/-- The inner `while j < len(instructions) - 1` loop of `get_arglist`, which
advances past an already-folded sub-expression: scan forward from `j` for the
instruction whose byte offset equals `start_offset`; on a match either stop
there (new index `j + 1`) or chase that instruction's own `start_offset`.
Returns the source's final value of `i` (the local `inst` reassignments are
dead after the loop and are not tracked). -/
def arglist_adv (instructions : List Instruction) (start_offset : Int)
    (i j : Nat) : Nat :=
  if h : j < instructions.length - 1 then
    match instructions.get? (j + 1) with
    | Option.none => i
    | Option.some inst2 =>
      if inst2.offset = start_offset then
        match inst2.start_offset with
        | Option.none => j + 1
        | Option.some s2 =>
          if s2 = start_offset then j + 1
          else arglist_adv instructions s2 i (j + 1)
      else arglist_adv instructions start_offset i (j + 1)
  else i
termination_by instructions.length - 1 - j
decreasing_by
  all_goals simp_wf
  all_goals omega

/-- The main `while arg_count > 0` loop of `get_arglist`.  Each iteration
indexes `instructions[i + 1]` (an overrun raises, `Except.error`), resolves
the operand text by truthiness (`argrepr` is a required string, so the
source's `arg is None` early return and its dead `"???"` branch cannot
trigger), stops after a jump target, and otherwise advances past folded
sub-expressions via `arglist_adv`. -/
def get_arglist_loop (instructions : List Instruction) (arglist : List String)
    (i : Nat) (arg_count : Int) : Except Unit (List String × Int × Nat) :=
  if h : 0 < arg_count then
    match instructions.get? (i + 1) with
    | Option.none => Except.error ()
    | Option.some inst =>
      let arg := truthy_text inst
      if inst.is_jump_target then
        Except.ok (arglist ++ [arg], arg_count - 1, i + 2)
      else
        let i2 : Nat :=
          match inst.start_offset with
          | Option.none => i + 1
          | Option.some so => arglist_adv instructions so (i + 1) (i + 1)
        get_arglist_loop instructions (arglist ++ [arg]) i2 (arg_count - 1)
  else
    Except.ok (arglist, arg_count, i)
termination_by arg_count.toNat
decreasing_by
  simp_wf
  omega

/-- `get_arglist(instructions, i, arg_count)` from the source.  The `i`
parameter is accepted but immediately overwritten by `i = 0` in the source,
so the loop always starts scanning at window index 1. -/
def get_arglist (instructions : List Instruction) (i : Nat) (arg_count : Int) :
    Except Unit (List String × Int × Nat) :=
  get_arglist_loop instructions [] 0 arg_count

/-- `extended_format_BUILD_LIST` from the source. -/
def extended_format_BUILD_LIST (opc : Opc) (instructions : List Instruction) :
    Except Unit (String × Option Int) :=
  match pyIndex instructions 0 with
  | Except.error e => Except.error e
  | Except.ok inst0 =>
    if inst0.argval = PyVal.int 0 then Except.ok ("[]", inst0.start_offset)
    else Except.ok ("", Option.none)

/-- `extended_format_BUILD_MAP` from the source. -/
def extended_format_BUILD_MAP (opc : Opc) (instructions : List Instruction) :
    Except Unit (String × Option Int) :=
  match pyIndex instructions 0 with
  | Except.error e => Except.error e
  | Except.ok inst0 =>
    if inst0.argval = PyVal.int 0 then Except.ok ("\x7b\x7d", inst0.start_offset)
    else Except.ok ("", Option.none)

/-- `extended_format_BUILD_SET` from the source. -/
def extended_format_BUILD_SET (opc : Opc) (instructions : List Instruction) :
    Except Unit (String × Option Int) :=
  match pyIndex instructions 0 with
  | Except.error e => Except.error e
  | Except.ok inst0 =>
    if inst0.argval = PyVal.int 0 then Except.ok ("set()", inst0.start_offset)
    else Except.ok ("", Option.none)

/-- `extended_format_BUILD_TUPLE` from the source: degenerate count 0 yields
`"()"` before any lookback; otherwise the arglist collector runs and text is
emitted only when it fully resolves, joining in reversed (source) order. -/
def extended_format_BUILD_TUPLE (opc : Opc) (instructions : List Instruction) :
    Except Unit (String × Option Int) :=
  match pyIndex instructions 0 with
  | Except.error e => Except.error e
  | Except.ok inst0 =>
    if inst0.argval = PyVal.int 0 then Except.ok ("()", inst0.start_offset)
    else
      match pyValAsInt inst0.argval with
      | Except.error e => Except.error e
      | Except.ok n =>
        match get_arglist instructions 0 n with
        | Except.error e => Except.error e
        | Except.ok (arglist, arg_count, i) =>
          if arg_count = 0 then
            match pyIndex instructions i with
            | Except.error e => Except.error e
            | Except.ok insti =>
              Except.ok ("(" ++ String.intercalate ", " arglist.reverse ++ ")",
                insti.start_offset)
          else Except.ok ("", Option.none)

/-- `extended_format_BUILD_SLICE` from the source: `assert argc in (2, 3)`
raises (`Except.error`) on any other count; otherwise the collector runs with
caller index 1 and `"None"` components print as empty slice bounds.  The
trailing `argval == 0` check of the source is unreachable under the assert
and is kept verbatim. -/
def extended_format_BUILD_SLICE (opc : Opc) (instructions : List Instruction) :
    Except Unit (String × Option Int) :=
  match pyIndex instructions 0 with
  | Except.error e => Except.error e
  | Except.ok inst0 =>
    if inst0.argval = PyVal.int 2 ∨ inst0.argval = PyVal.int 3 then
      match pyValAsInt inst0.argval with
      | Except.error e => Except.error e
      | Except.ok n =>
        match get_arglist instructions 1 n with
        | Except.error e => Except.error e
        | Except.ok (arglist, arg_count, i) =>
          if arg_count = 0 then
            let arglist1 := arglist.map (fun a => if a = "None" then "" else a)
            match pyIndex instructions i with
            | Except.error e => Except.error e
            | Except.ok insti =>
              Except.ok (String.intercalate ":" arglist1.reverse, insti.start_offset)
          else if inst0.argval = PyVal.int 0 then
            Except.ok ("set()", inst0.start_offset)
          else Except.ok ("", Option.none)
    else Except.error ()

/-- `extended_format_CALL_FUNCTION` from the source: collect `argval` many
operands, require full resolution, locate the callee right after them,
special-case an immediately-made function (whose first collected argument is
replaced by the nested code object's name — a non-string there would make
the later `", ".join` raise), and reverse the collected list back to source
order only for bytecode versions at least (3, 6). -/
def extended_format_CALL_FUNCTION (opc : Opc) (instructions : List Instruction) :
    Except Unit (String × Option Int) :=
  match pyIndex instructions 0 with
  | Except.error e => Except.error e
  | Except.ok call_inst =>
    match pyValAsInt call_inst.argval with
    | Except.error e => Except.error e
    | Except.ok ac0 =>
      match get_arglist instructions 0 ac0 with
      | Except.error e => Except.error e
      | Except.ok (arglist, arg_count, i) =>
        if arg_count ≠ 0 then Except.ok ("", Option.none)
        else
          match pyIndex instructions (i + 1) with
          | Except.error e => Except.error e
          | Except.ok fn_inst =>
            if fn_inst.opcode ∈ opc.operator_set then
              match pyIndex instructions 1 with
              | Except.error e => Except.error e
              | Except.ok inst_at_1 =>
                let fixed : Except Unit (List String) :=
                  if inst_at_1.opname = "MAKE_FUNCTION" then
                    match pyIndex instructions 2 with
                    | Except.error e => Except.error e
                    | Except.ok inst_at_2 =>
                      if arglist.length = 0 then Except.error ()
                      else
                        match inst_at_2.argval with
                        | PyVal.str s => Except.ok (arglist.set 0 s)
                        | _ => Except.error ()
                  else Except.ok arglist
                match fixed with
                | Except.error e => Except.error e
                | Except.ok arglist1 =>
                  let fn_name := truthy_text fn_inst
                  let arglist2 :=
                    if version_ge_36 opc.version_tuple then arglist1.reverse
                    else arglist1
                  Except.ok (fn_name ++ "(" ++ String.intercalate ", " arglist2 ++ ")",
                    Option.some fn_inst.offset)
            else Except.ok ("", Option.none)

/-- `extended_format_IMPORT_NAME` from the source: no lookback. -/
def extended_format_IMPORT_NAME (opc : Opc) (instructions : List Instruction) :
    Except Unit (String × Option Int) :=
  match pyIndex instructions 0 with
  | Except.error e => Except.error e
  | Except.ok inst =>
    Except.ok ("import_module(" ++ pyStr inst.argval ++ ")", inst.start_offset)

/-- `extended_format_BINARY_ADD` from the source. -/
def extended_format_BINARY_ADD (opc : Opc) (instructions : List Instruction) :
    Except Unit (String × Option Int) :=
  extended_format_infix_binary_op opc instructions " + "

/-- `extended_format_BINARY_SUBSCR` from the source: the prefix-binary rule
with the positional template `"%s[%s]"`. -/
def extended_format_BINARY_SUBSCR (opc : Opc) (instructions : List Instruction) :
    Except Unit (String × Option Int) :=
  extended_format_binary_op opc instructions (fun a b => a ++ "[" ++ b ++ "]")

/-!
Concrete fixtures: a small opcode classification and a handful of
instructions, used to instantiate the theorems below.  Opcode numbers:
1 name load, 2 const load, 3 BUILD_LIST (variable arity), 4 store,
6 binary add, 7 in-place add, 8 CALL_FUNCTION, 9 LOAD_ATTR, 50 an opcode
in no classification set, 100 CACHE, 60 RETURN_VALUE.
-/

/-- Test classification, bytecode version (3, 6). -/
def opcT : Opc :=
  ⟨[1, 2, 3, 6, 7], [3], [8], [1], [2], [], (3, 6)⟩

/-- Test classification, bytecode version (3, 4) — the era the base table is
written for. -/
def opc34 : Opc :=
  ⟨[1, 2, 3, 6, 7], [3], [8], [1], [2], [], (3, 4)⟩

/-- A name load pushing `v`, with pushed-value text and a folded start
offset. -/
def loadV : Instruction :=
  ⟨1, "LOAD_NAME", PyVal.str "v", "v", 0, Option.some 0, false, Option.some "v"⟩

/-- A store instruction `x = ...` at offset 4. -/
def storeX : Instruction :=
  ⟨4, "STORE_NAME", PyVal.str "x", "x", 4, Option.none, false, Option.none⟩

/-- A CACHE padding pseudo-instruction at offset 2. -/
def cacheI : Instruction :=
  ⟨100, "CACHE", PyVal.none, "", 2, Option.none, false, Option.none⟩

/-- A variable-arity `BUILD_LIST 2` with no pushed-value text, at offset 2. -/
def buildL2 : Instruction :=
  ⟨3, "BUILD_LIST", PyVal.int 2, "2", 2, Option.none, false, Option.none⟩

/-- A `BUILD_xxx 0` degenerate collection literal, with a start offset. -/
def build0 : Instruction :=
  ⟨3, "BUILD_LIST", PyVal.int 0, "0", 2, Option.some 2, false, Option.none⟩

/-- A `LOAD_ATTR` instruction reading attribute `attr`. -/
def attrI : Instruction :=
  ⟨9, "LOAD_ATTR", PyVal.str "attr", "attr", 4, Option.none, false, Option.none⟩

/-- A binary add under decoration, at offset 4. -/
def addI : Instruction :=
  ⟨6, "BINARY_ADD", PyVal.none, "", 4, Option.none, false, Option.none⟩

/-- A resolved near operand `x` at offset 2 (no folded start offset). -/
def nearX : Instruction :=
  ⟨1, "LOAD_NAME", PyVal.str "x", "x", 2, Option.none, false, Option.some "x"⟩

/-- A near operand `y` that resolves via its rendered text only (no
pushed-value text, no folded start offset). -/
def nearY : Instruction :=
  ⟨1, "LOAD_NAME", PyVal.str "y", "y", 2, Option.none, false, Option.none⟩

/-- An unresolvable far operand: unknown opcode, no pushed-value text, empty
rendered text, no start offset. -/
def farU : Instruction :=
  ⟨50, "UNKNOWN_OP", PyVal.none, "", 0, Option.none, false, Option.none⟩

/-- An unresolvable far operand like `farU`, but carrying a start offset. -/
def farS : Instruction :=
  ⟨50, "UNKNOWN_OP", PyVal.none, "", 0, Option.some 0, false, Option.none⟩

/-- A `RETURN_VALUE` under decoration. -/
def retI : Instruction :=
  ⟨60, "RETURN_VALUE", PyVal.none, "", 6, Option.none, false, Option.none⟩

/-- A resolved operand at byte offset 4 whose folded start offset is 2. -/
def operandO : Instruction :=
  ⟨1, "LOAD_NAME", PyVal.str "x", "x", 4, Option.some 2, false, Option.some "x"⟩

/-- An in-place add with pushed-value text `x += 1`. -/
def inplI : Instruction :=
  ⟨7, "INPLACE_ADD", PyVal.none, "", 2, Option.some 0, false, Option.some "x += 1"⟩

/-- `CALL_FUNCTION 2` under decoration, at offset 6. -/
def callI : Instruction :=
  ⟨8, "CALL_FUNCTION", PyVal.int 2, "2", 6, Option.none, false, Option.none⟩

/-- The instruction pushing call argument `b` (pushed last, window index 1). -/
def argB : Instruction :=
  ⟨1, "LOAD_NAME", PyVal.str "b", "b", 4, Option.none, false, Option.none⟩

/-- The instruction pushing call argument `a` (pushed first). -/
def argA : Instruction :=
  ⟨1, "LOAD_NAME", PyVal.str "a", "a", 2, Option.none, false, Option.none⟩

/-- The instruction pushing the callee `f`. -/
def fnF : Instruction :=
  ⟨1, "LOAD_NAME", PyVal.str "f", "f", 0, Option.none, false, Option.none⟩

/-! ### Helper lemmas -/

theorem pyIndex_zero (a : Instruction) (l : List Instruction) :
    pyIndex (a :: l) 0 = Except.ok a := rfl

theorem pyIndex_one (a b : Instruction) (l : List Instruction) :
    pyIndex (a :: b :: l) 1 = Except.ok b := rfl

theorem pyIndex_two (a b c : Instruction) (l : List Instruction) :
    pyIndex (a :: b :: c :: l) 2 = Except.ok c := rfl

theorem pyIndex_three (a b c d : Instruction) (l : List Instruction) :
    pyIndex (a :: b :: c :: d :: l) 3 = Except.ok d := rfl

/-! ### Claim C10 -/

/-- C10: the argument-list collector ignores its start-index parameter — the
source resets `i = 0` before scanning, so `get_arglist(instructions, i, n)`
returns the identical triple for every caller-supplied `i` (the tuple and
call rules pass 0, the slice rule passes 1, with no effect). -/
theorem c10_get_arglist_ignores_index (instructions : List Instruction)
    (i j : Nat) (arg_count : Int) :
    get_arglist instructions i arg_count = get_arglist instructions j arg_count := rfl

/-! ### Claim C9 -/

/-- C9: `safe_repr` always yields a string: a raised rendering exception is
caught and replaced by the generic fallback rendering (then subject to the
same truncation), and any rendering longer than `max_len` characters is
truncated to `max_len` characters with the ellipsis suffix appended. -/
theorem c9_safe_repr_total_truncating (r : Except Unit String) (fb : String)
    (m : Nat) :
    (r = Except.error () →
      safe_repr r fb m = (if m < fb.length then fb.take m ++ "..." else fb))
  ∧ (∀ s, r = Except.ok s → m < s.length → safe_repr r fb m = s.take m ++ "...") := by
  constructor
  · intro h
    subst h
    rfl
  · intro s h hl
    subst h
    simp only [safe_repr]
    rw [if_pos hl]

/-- Witness for C9 at concrete inputs: a raising renderer falls back to the
generic text (truncated), and a long successful rendering is truncated with
the ellipsis. -/
theorem c9_witness :
    safe_repr (Except.error ()) "generic" 3 = "gen..." ∧
    safe_repr (Except.ok "abcdefgh") "generic" 5 = "abcde..." := by
  constructor
  · rw [(c9_safe_repr_total_truncating (Except.error ()) "generic" 3).1 rfl]
    decide
  · rw [(c9_safe_repr_total_truncating (Except.ok "abcdefgh") "generic" 5).2
      "abcdefgh" rfl (by decide)]
    decide

/-! ### Claim C7 -/

/-- C7: each collection-literal rule with declared count 0 produces exactly
the empty-literal spelling with the decorated instruction's own start offset,
and reads nothing of the window beyond index 0 (the result is unchanged
under any replacement of the window tail). -/
theorem c7_build_empty_literals (opc : Opc) (inst0 : Instruction)
    (rest rest2 : List Instruction) (hz : inst0.argval = PyVal.int 0) :
    (extended_format_BUILD_LIST opc (inst0 :: rest) = Except.ok ("[]", inst0.start_offset)
      ∧ extended_format_BUILD_LIST opc (inst0 :: rest)
          = extended_format_BUILD_LIST opc (inst0 :: rest2))
  ∧ (extended_format_BUILD_MAP opc (inst0 :: rest) = Except.ok ("\x7b\x7d", inst0.start_offset)
      ∧ extended_format_BUILD_MAP opc (inst0 :: rest)
          = extended_format_BUILD_MAP opc (inst0 :: rest2))
  ∧ (extended_format_BUILD_SET opc (inst0 :: rest) = Except.ok ("set()", inst0.start_offset)
      ∧ extended_format_BUILD_SET opc (inst0 :: rest)
          = extended_format_BUILD_SET opc (inst0 :: rest2))
  ∧ (extended_format_BUILD_TUPLE opc (inst0 :: rest) = Except.ok ("()", inst0.start_offset)
      ∧ extended_format_BUILD_TUPLE opc (inst0 :: rest)
          = extended_format_BUILD_TUPLE opc (inst0 :: rest2)) := by
  refine ⟨⟨?_, ?_⟩, ⟨?_, ?_⟩, ⟨?_, ?_⟩, ⟨?_, ?_⟩⟩ <;>
    simp only [extended_format_BUILD_LIST, extended_format_BUILD_MAP,
      extended_format_BUILD_SET, extended_format_BUILD_TUPLE, pyIndex_zero] <;>
    rw [if_pos hz]
  · rw [if_pos hz]

/-- Witness for C7 at a concrete `BUILD_xxx 0` instruction. -/
theorem c7_witness :
    extended_format_BUILD_LIST opcT [build0] = Except.ok ("[]", Option.some 2) ∧
    extended_format_BUILD_MAP opcT [build0] = Except.ok ("\x7b\x7d", Option.some 2) ∧
    extended_format_BUILD_SET opcT [build0] = Except.ok ("set()", Option.some 2) ∧
    extended_format_BUILD_TUPLE opcT [build0] = Except.ok ("()", Option.some 2) := by
  have h := c7_build_empty_literals opcT build0 [] [] rfl
  exact ⟨h.1.1, h.2.1.1, h.2.2.1.1, h.2.2.2.1⟩

/-! ### Claim C2 -/

/-- C2 (code bug): `skip_cache` is not total.  Its guard
`while instructions[i].opname == "CACHE" and i < n` indexes before testing
the bound, so on a window whose instructions from `i` on are all `CACHE` the
loop walks past the end and raises `IndexError` (modeled as `Option.none`),
instead of returning the window length 1 promised by its own docstring and
by the claim. -/
theorem c2_skip_cache_overrun :
    skip_cache [cacheI] 0 = Option.none ∧
    (Option.none : Option Nat) ≠ Option.some ([cacheI] : List Instruction).length := by
  constructor
  · rfl
  · decide

/-! ### Claim C6 -/

/-- C6 (counterexample): the unary rule does not return the operand
instruction's byte offset.  Concretely, the operand `operandO` sits at byte
offset 4 but carries folded start offset 2, and the rule returns 2 — the
`start_offset` field — not the operand's own offset, refuting the claim as
stated. -/
theorem c6_counterexample :
    extended_format_RETURN_VALUE opcT [retI, operandO] = Except.ok ("return x", Option.some 2)
    ∧ Option.some (2 : Int) ≠ Option.some operandO.offset := by
  exact ⟨rfl, by decide⟩

/-- C6 (amended): for a unary-shaped opcode whose operand carries
pushed-value text `t`, the rule returns the fixed template applied to `t`,
and the returned offset equals the operand instruction's `start_offset`
field (which may be null), not its byte offset. -/
theorem c6_amended_unary_template (opc : Opc) (u p : Instruction)
    (rest : List Instruction) (t : String) (ht : p.tos_str = Option.some t) :
    (∀ fmt : String → String,
      extended_format_unary_op opc (u :: p :: rest) fmt = Except.ok (fmt t, p.start_offset))
  ∧ extended_format_RETURN_VALUE opc (u :: p :: rest)
      = Except.ok ("return " ++ t, p.start_offset)
  ∧ extended_format_UNARY_INVERT opc (u :: p :: rest)
      = Except.ok ("~(" ++ t ++ ")", p.start_offset)
  ∧ extended_format_UNARY_NEGATIVE opc (u :: p :: rest)
      = Except.ok ("-(" ++ t ++ ")", p.start_offset)
  ∧ extended_format_UNARY_NOT opc (u :: p :: rest)
      = Except.ok ("not (" ++ t ++ ")", p.start_offset) := by
  have key : ∀ fmt : String → String,
      extended_format_unary_op opc (u :: p :: rest) fmt = Except.ok (fmt t, p.start_offset) := by
    intro fmt
    simp only [extended_format_unary_op, pyIndex_one, ht]
  exact ⟨key, key _, key _, key _, key _⟩

/-- Witness for the amended C6 at a concrete window. -/
theorem c6_witness :
    extended_format_RETURN_VALUE opcT [retI, operandO] = Except.ok ("return x", Option.some 2)
    ∧ extended_format_UNARY_NOT opcT [retI, operandO] = Except.ok ("not (x)", Option.some 2) := by
  have h := c6_amended_unary_template opcT retI operandO [] "x" rfl
  exact ⟨h.2.1, h.2.2.2.2⟩

/-! ### Claim C8 -/

/-- C8: the store rule special-cases in-place operators.  When the
predecessor is an in-place operator (mnemonic starting `INPLACE_`) with
resolved pushed-value text `t`, the rule returns `t` alone — no
`target = ` prefix; when the predecessor is any other pure-value-producer
(not an import special case) with pushed-value text `t`, it returns
`target = t`. -/
theorem c8_store_inplace_policy (opc : Opc) (st p : Instruction)
    (rest : List Instruction) (t : String)
    (hop : p.opcode ∈ opc.operator_set)
    (ht : p.tos_str = Option.some t) :
    (py_startswith p.opname "INPLACE_" = true →
      extended_format_store_op opc (st :: p :: rest) = Except.ok (t, p.start_offset))
  ∧ (py_startswith p.opname "INPLACE_" = false →
     p.opname ≠ "IMPORT_NAME" → p.opname ≠ "IMPORT_FROM" →
      extended_format_store_op opc (st :: p :: rest)
        = Except.ok (pyStr st.argval ++ " = " ++ t, p.start_offset)) := by
  have hvn : ¬((p.opcode ∈ opc.VARGS_OPS ∨ p.opcode ∈ opc.NARGS_OPS)
      ∧ p.tos_str = Option.none) := by
    rintro ⟨-, hx⟩
    rw [ht] at hx
    cases hx
  constructor
  · intro hin
    have hni : p.opname ≠ "IMPORT_NAME" := by
      intro he; rw [he] at hin; exact absurd hin (by decide)
    have hnf : p.opname ≠ "IMPORT_FROM" := by
      intro he; rw [he] at hin; exact absurd hin (by decide)
    have hnc : p.opname ≠ "LOAD_CONST" := by
      intro he; rw [he] at hin; exact absurd hin (by decide)
    simp only [extended_format_store_op, pyIndex_zero, pyIndex_one]
    rw [if_neg hni, if_neg hnf, if_pos hop, if_neg hnc, if_neg hvn]
    simp only [get_instruction_arg, ht, hin]
    simp
  · intro hin hni hnf
    simp only [extended_format_store_op, pyIndex_zero, pyIndex_one]
    rw [if_neg hni, if_neg hnf, if_pos hop]
    by_cases hnc : p.opname = "LOAD_CONST"
    · rw [if_pos hnc]
      simp only [get_instruction_arg, ht, hin]
      simp
    · rw [if_neg hnc, if_neg hvn]
      simp only [get_instruction_arg, ht, hin]
      simp

/-- Witness for C8: an in-place predecessor emits its own text unwrapped; a
plain load predecessor gets the `x = ` wrapping. -/
theorem c8_witness :
    extended_format_store_op opcT [storeX, inplI] = Except.ok ("x += 1", Option.some 0)
    ∧ extended_format_store_op opcT [storeX, loadV] = Except.ok ("x = v", Option.some 0) := by
  constructor
  · exact (c8_store_inplace_policy opcT storeX inplI [] "x += 1" (by decide) rfl).1 (by decide)
  · have h := (c8_store_inplace_policy opcT storeX loadV [] "v" (by decide) rfl).2
      (by decide) (by decide) (by decide)
    rw [h]
    rfl

/-! ### Skip-cache evaluation lemmas -/

theorem skip_cache_at_noncache (insts : List Instruction) (i : Nat)
    (x : Instruction) (l : List Instruction) (hd : insts.drop i = x :: l)
    (hx : x.opname ≠ "CACHE") : skip_cache insts i = Option.some i := by
  simp [skip_cache, hd, skip_cache_aux, hx]

theorem skip_cache_at_cache (insts : List Instruction) (i : Nat)
    (x : Instruction) (l : List Instruction) (hd : insts.drop i = x :: l)
    (hx : x.opname = "CACHE") (hil : i < insts.length) :
    skip_cache insts i = skip_cache insts (i + 1) := by
  have hdrop : insts.drop (i + 1) = l := by
    rw [← List.tail_drop, hd]
    rfl
  simp [skip_cache, hd, skip_cache_aux, hx, hil, hdrop]

theorem skip_cache_raw_at_noncache (insts : List Instruction) (i : Nat)
    (x : Instruction) (l : List Instruction) (hd : insts.drop i = x :: l)
    (hx : x.opname ≠ "CACHE") : skip_cache_raw insts i = Option.some i := by
  simp [skip_cache_raw, hd, skip_cache_raw_aux, hx]

theorem skip_cache_raw_at_cache (insts : List Instruction) (i : Nat)
    (x : Instruction) (l : List Instruction) (hd : insts.drop i = x :: l)
    (hx : x.opname = "CACHE") :
    skip_cache_raw insts i = skip_cache_raw insts (i + 1) := by
  have hdrop : insts.drop (i + 1) = l := by
    rw [← List.tail_drop, hd]
    rfl
  simp [skip_cache_raw, hd, skip_cache_raw_aux, hx, hdrop]

/-! ### Claim C1 -/

/-- C1 (counterexample): the "two outcomes" shape does not hold as claimed.
A store whose predecessor is a variable-arity instruction with unresolved
count returns empty text paired with the predecessor's byte offset 2 — not
a null offset; and the attribute rule applied to a non-name-like predecessor
returns Python `None` (no pair at all) rather than the empty-text/null-offset
pair. -/
theorem c1_counterexample :
    extended_format_store_op opcT [storeX, buildL2] = Except.ok ("", Option.some 2)
    ∧ Option.some (2 : Int) ≠ (Option.none : Option Int)
    ∧ extended_format_ATTR opcT [attrI, buildL2] = Except.ok Option.none := by
  refine ⟨rfl, by decide, rfl⟩

/-- C1 (amended): on the malformed inputs named by the claim no exception is
raised, but the no-reconstruction signal differs by rule: the operand-shaped
(prefix-binary) rule returns `("", null)` for an unknown preceding opcode;
the store rule returns empty text paired with the predecessor's (non-null)
byte offset for an unresolvable variable-arity count; and the attribute rule
returns no pair at all (Python `None`) for a non-name-like predecessor. -/
theorem c1_amended_no_reconstruction (opc : Opc) :
    (∀ (fmt : String → String → String) (b s1 : Instruction) (rest : List Instruction),
       s1.opname ≠ "CACHE" → s1.tos_str = Option.none →
       s1.opcode ∉ opc.operator_set →
       extended_format_binary_op opc (b :: s1 :: rest) fmt = Except.ok ("", Option.none))
  ∧ (∀ (st p : Instruction) (rest : List Instruction),
       p.opname ≠ "IMPORT_NAME" → p.opname ≠ "IMPORT_FROM" → p.opname ≠ "LOAD_CONST" →
       p.opcode ∈ opc.operator_set →
       (p.opcode ∈ opc.VARGS_OPS ∨ p.opcode ∈ opc.NARGS_OPS) →
       p.tos_str = Option.none →
       extended_format_store_op opc (st :: p :: rest) = Except.ok ("", Option.some p.offset))
  ∧ (∀ (a p : Instruction) (rest : List Instruction),
       p.opcode ∉ opc.NAME_OPS → p.opcode ∉ opc.CONST_OPS → p.opcode ∉ opc.LOCAL_OPS →
       extended_format_ATTR opc (a :: p :: rest) = Except.ok Option.none) := by
  refine ⟨?_, ?_, ?_⟩
  · intro fmt b s1 rest hname htos hmem
    have hskip : skip_cache (b :: s1 :: rest) 1 = Option.some 1 :=
      skip_cache_at_noncache _ 1 s1 rest rfl hname
    have hcond : ¬(s1.tos_str ≠ Option.none ∨ s1.opcode ∈ opc.operator_set) := by
      rintro (hx | hx)
      · exact hx htos
      · exact hmem hx
    simp only [extended_format_binary_op, hskip, pyIndex_one]
    rw [if_neg hcond]
  · intro st p rest hni hnf hnc hop hvar htos
    simp only [extended_format_store_op, pyIndex_zero, pyIndex_one]
    rw [if_neg hni, if_neg hnf, if_pos hop, if_neg hnc, if_pos ⟨hvar, htos⟩]
  · intro a p rest h1 h2 h3
    have hcond : ¬(p.opcode ∈ opc.NAME_OPS ∨ p.opcode ∈ opc.CONST_OPS
        ∨ p.opcode ∈ opc.LOCAL_OPS) := by
      rintro (hx | hx | hx)
      · exact h1 hx
      · exact h2 hx
      · exact h3 hx
    simp only [extended_format_ATTR, pyIndex_one]
    rw [if_neg hcond]

/-- Witness for the amended C1 at concrete malformed windows. -/
theorem c1_witness :
    extended_format_binary_op opcT [addI, farU] (fun a b => a ++ "[" ++ b ++ "]")
      = Except.ok ("", Option.none)
    ∧ extended_format_store_op opcT [storeX, buildL2] = Except.ok ("", Option.some 2)
    ∧ extended_format_ATTR opcT [attrI, buildL2] = Except.ok Option.none := by
  have h := c1_amended_no_reconstruction opcT
  refine ⟨h.1 _ addI farU [] (by decide) rfl (by decide), ?_,
    h.2.2 attrI buildL2 [] (by decide) (by decide) (by decide)⟩
  have h2 := h.2.1 storeX buildL2 [] (by decide) (by decide) (by decide)
    (by decide) (by decide) rfl
  rw [h2]
  rfl

/-! ### Claim C3 -/

/-- C3 (counterexample): when the near operand resolves but the farther one
does not, the returned offset is not the near operand's offset.  Here the
near operand sits at offset 2, yet the infix rule returns a null offset
(the farther instruction has no start offset); and the subscript-shaped rule
spells the partial expression `...[x]`, not `x[...]` as the claim states. -/
theorem c3_counterexample :
    extended_format_BINARY_ADD opcT [addI, nearX, farU] = Except.ok ("... + (x)", Option.none)
    ∧ (Option.none : Option Int) ≠ Option.some nearX.offset
    ∧ extended_format_BINARY_SUBSCR opcT [addI, nearX, farU] = Except.ok ("...[x]", Option.none)
    ∧ ("...[x]" : String) ≠ "x[...]" := by
  refine ⟨rfl, by decide, rfl, by decide⟩

/-- C3 (amended): when the near operand carries pushed-value text `t` but
the farther operand has no pushed-value text, empty rendered text, and is
not a pure-value-producer, the rule still emits the non-empty partial
expression (`... <op> (t)` for infix, `...[t]` for subscript), and the
returned offset equals the **farther** instruction's `start_offset` — which
is null exactly when that field is null. -/
theorem c3_amended_partial_resolution (opc : Opc) (b near far : Instruction)
    (rest : List Instruction) (t : String) (op_str : String)
    (hnear_name : near.opname ≠ "CACHE") (hfar_name : far.opname ≠ "CACHE")
    (ht : near.tos_str = Option.some t) (hns : near.start_offset = Option.none)
    (hft : far.tos_str = Option.none) (hfa : far.argrepr = "")
    (hfmem : far.opcode ∉ opc.operator_set) :
    extended_format_infix_binary_op opc (b :: near :: far :: rest) op_str
      = Except.ok ("..." ++ op_str ++ "(" ++ t ++ ")", far.start_offset)
    ∧ extended_format_BINARY_SUBSCR opc (b :: near :: far :: rest)
      = Except.ok ("..." ++ "[" ++ t ++ "]", far.start_offset) := by
  constructor
  · have hskip1 : skip_cache_raw (b :: near :: far :: rest) 1 = Option.some 1 :=
      skip_cache_raw_at_noncache _ 1 near (far :: rest) rfl hnear_name
    have hskip2 : skip_cache_raw (b :: near :: far :: rest) 2 = Option.some 2 :=
      skip_cache_raw_at_noncache _ 2 far rest rfl hfar_name
    simp only [extended_format_infix_binary_op, hskip1, pyIndex_one, pyIndex_two, ht, hns]
    rw [if_pos (Or.inl (by simp))]
    simp only [Nat.reduceAdd, hskip2, pyIndex_one, pyIndex_two]
    rw [if_neg (by rintro ⟨hx, -⟩; exact hfmem hx)]
    cases hso : far.start_offset with
    | none => simp [hso, hft, hfa, String.append_assoc]
    | some so => simp [hso, hft, hfa, String.append_assoc]
  · have hskip1 : skip_cache (b :: near :: far :: rest) 1 = Option.some 1 :=
      skip_cache_at_noncache _ 1 near (far :: rest) rfl hnear_name
    have hskip2 : skip_cache (b :: near :: far :: rest) 2 = Option.some 2 :=
      skip_cache_at_noncache _ 2 far rest rfl hfar_name
    simp only [extended_format_BINARY_SUBSCR, extended_format_binary_op, hskip1,
      pyIndex_one, pyIndex_two, ht, hns]
    rw [if_pos (Or.inl (by simp))]
    simp only [Nat.reduceAdd, hskip2, pyIndex_one, pyIndex_two]
    rw [if_neg (by rintro ⟨-, hx⟩; exact hfmem hx)]
    cases hso : far.start_offset with
    | none => simp [hso, hft, hfa, get_instruction_arg, String.append_assoc]
    | some so => simp [hso, hft, hfa, get_instruction_arg, String.append_assoc]

/-- Witness for the amended C3: the farther instruction has start offset 0,
which is what the rule returns, together with the partial text. -/
theorem c3_witness :
    extended_format_infix_binary_op opcT [addI, nearX, farS] " + "
      = Except.ok ("... + (x)", Option.some 0)
    ∧ extended_format_BINARY_SUBSCR opcT [addI, nearX, farS]
      = Except.ok ("...[x]", Option.some 0) := by
  have h := c3_amended_partial_resolution opcT addI nearX farS [] "x" " + "
    (by decide) (by decide) rfl rfl rfl rfl (by decide)
  constructor
  · rw [h.1]
    rfl
  · rw [h.2]
    rfl

/-! ### Claim C5 -/

/-- C5 (counterexample): padding is not transparently skipped by every rule.
The store rule reads the literal window index 1: inserting a `CACHE`
pseudo-instruction between the store and its operand-producing predecessor
changes the result from `x = v` (with the predecessor's start offset) to the
no-reconstruction pair carrying the CACHE's own offset.  The infix rule is
not transparent either: it reads `instructions[1].argrepr` and
`instructions[1].start_offset` at literal index 1, so for a near operand
resolved via its rendered text the inserted CACHE's empty `argrepr` is
interpolated and `... + y` degrades to `... + `. -/
theorem c5_counterexample :
    (extended_format_store_op opcT [storeX, loadV] = Except.ok ("x = v", Option.some 0)
      ∧ extended_format_store_op opcT [storeX, cacheI, loadV] = Except.ok ("", Option.some 2)
      ∧ (("x = v", Option.some (0 : Int)) : String × Option Int) ≠ ("", Option.some 2))
    ∧ (extended_format_BINARY_ADD opcT [addI, nearY, farS]
        = Except.ok ("... + y", Option.some 0)
      ∧ extended_format_BINARY_ADD opcT [addI, cacheI, nearY, farS]
        = Except.ok ("... + ", Option.some 0)
      ∧ ("... + y" : String) ≠ "... + ") := by
  refine ⟨⟨rfl, rfl, by decide⟩, ⟨rfl, rfl, by decide⟩⟩

/-- C5 (amended): only the prefix-binary rule — which uses `skip_cache` and
reads every operand field at the skipped index — is padding transparent:
inserting one `CACHE` pseudo-instruction before the near operand (when that
operand has no folded start offset) leaves both the reconstructed text and
the offset unchanged.  The infix rule reads `instructions[1].argrepr` and
`instructions[1].start_offset` at literal index 1 and is therefore not
transparent for an `argrepr`-resolved near operand (see the counterexample),
and the store, unary, and attribute rules and the argument-list collector
read literal window indices with no padding skipping at all. -/
theorem c5_amended_padding (opc : Opc) (b cache near far : Instruction)
    (rest : List Instruction) (fmt : String → String → String)
    (hcache : cache.opname = "CACHE")
    (hnear_name : near.opname ≠ "CACHE") (hfar_name : far.opname ≠ "CACHE")
    (hns : near.start_offset = Option.none) :
    extended_format_binary_op opc (b :: cache :: near :: far :: rest) fmt
      = extended_format_binary_op opc (b :: near :: far :: rest) fmt := by
  have hs1c : skip_cache (b :: cache :: near :: far :: rest) 1
      = skip_cache (b :: cache :: near :: far :: rest) (1 + 1) :=
    skip_cache_at_cache _ 1 cache (near :: far :: rest) rfl hcache
      (by simp only [List.length_cons]; omega)
  have hs2c : skip_cache (b :: cache :: near :: far :: rest) 2 = Option.some 2 :=
    skip_cache_at_noncache _ 2 near (far :: rest) rfl hnear_name
  have hs3c : skip_cache (b :: cache :: near :: far :: rest) 3 = Option.some 3 :=
    skip_cache_at_noncache _ 3 far rest rfl hfar_name
  have hs1 : skip_cache (b :: near :: far :: rest) 1 = Option.some 1 :=
    skip_cache_at_noncache _ 1 near (far :: rest) rfl hnear_name
  have hs2 : skip_cache (b :: near :: far :: rest) 2 = Option.some 2 :=
    skip_cache_at_noncache _ 2 far rest rfl hfar_name
  simp only [extended_format_binary_op, hs1c, Nat.reduceAdd, hs2c, hs3c, hs1, hs2,
    pyIndex_one, pyIndex_two, pyIndex_three, hns]

/-- Witness for the amended C5 at a concrete window. -/
theorem c5_witness :
    extended_format_binary_op opcT [addI, cacheI, nearX, farS]
        (fun a b => a ++ "[" ++ b ++ "]")
      = extended_format_binary_op opcT [addI, nearX, farS]
        (fun a b => a ++ "[" ++ b ++ "]") := by
  exact c5_amended_padding opcT addI cacheI nearX farS []
    (fun a b => a ++ "[" ++ b ++ "]") rfl (by decide) (by decide) rfl

/-! ### Claim C4 -/

theorem pyIndex_cons_succ (a : Instruction) (l : List Instruction) (n : Nat) :
    pyIndex (a :: l) (n + 1) = pyIndex l n := rfl

theorem pyIndex_append_length (l1 : List Instruction) (x : Instruction)
    (l2 : List Instruction) : pyIndex (l1 ++ x :: l2) l1.length = Except.ok x := by
  simp only [pyIndex, List.get?_append_right (Nat.le_refl l1.length), Nat.sub_self]
  rfl

/-- Evaluation of the collector loop over a block of "plain" argument
instructions (no folded start offset, not jump targets): it consumes exactly
the block, appending each operand's truthiness-resolved text in window
order, and ends at the index of the block's last instruction. -/
theorem get_arglist_loop_plain (args : List Instruction) :
    ∀ (pre rest : List Instruction) (acc : List String) (i : Nat),
      pre.length = i + 1 →
      (∀ a ∈ args, a.start_offset = Option.none ∧ a.is_jump_target = false) →
      get_arglist_loop (pre ++ (args ++ rest)) acc i (args.length : Int) =
        Except.ok (acc ++ args.map truthy_text, 0, i + args.length) := by
  induction args with
  | nil =>
    intro pre rest acc i hpre hplain
    rw [get_arglist_loop]
    simp
  | cons a args ih =>
    intro pre rest acc i hpre hplain
    have hget : (pre ++ (a :: args ++ rest)).get? (i + 1) = Option.some a := by
      have hz : i + 1 - pre.length = 0 := by omega
      rw [List.get?_append_right (by omega), hz]
      rfl
    have hjt : a.is_jump_target = false := (hplain a (List.mem_cons_self a args)).2
    have hso : a.start_offset = Option.none := (hplain a (List.mem_cons_self a args)).1
    have hcount : ((a :: args).length : Int) - 1 = (args.length : Int) := by
      simp [List.length_cons]
    have hlist : pre ++ ((a :: args) ++ rest) = (pre ++ [a]) ++ (args ++ rest) := by
      simp
    rw [get_arglist_loop]
    rw [dif_pos (by simp only [List.length_cons]; omega)]
    simp only [hget, hjt, hso, Bool.false_eq_true, if_false, hcount]
    rw [hlist]
    rw [ih (pre ++ [a]) rest (acc ++ [truthy_text a]) (i + 1)
      (by simp [hpre]) (fun x hx => hplain x (List.mem_cons_of_mem a hx))]
    simp [Nat.add_assoc, Nat.add_comm, Nat.add_left_comm]

/-- Evaluation of `extended_format_CALL_FUNCTION` on a well-shaped window:
the declared count matches a block of plain argument instructions, the
callee follows directly, is a pure-value-producer, and no `MAKE_FUNCTION`
special case triggers.  The emitted argument order depends on the bytecode
version: reversed back to source order only from version (3, 6) on. -/
theorem call_function_general (opc : Opc) (call fn : Instruction)
    (args rest : List Instruction)
    (hn : call.argval = PyVal.int (args.length : Int))
    (hpos : args ≠ [])
    (hplain : ∀ a ∈ args, a.start_offset = Option.none ∧ a.is_jump_target = false)
    (hmf : ∀ a, args.get? 0 = Option.some a → a.opname ≠ "MAKE_FUNCTION")
    (hfn : fn.opcode ∈ opc.operator_set) :
    extended_format_CALL_FUNCTION opc (call :: (args ++ fn :: rest))
      = Except.ok (truthy_text fn ++ "(" ++
          String.intercalate ", "
            (if version_ge_36 opc.version_tuple then (args.map truthy_text).reverse
             else args.map truthy_text) ++ ")",
          Option.some fn.offset) := by
  cases args with
  | nil => exact absurd rfl hpos
  | cons a0 args0 =>
    have harg : get_arglist (call :: ((a0 :: args0) ++ fn :: rest)) 0
        (((a0 :: args0).length : Nat) : Int)
        = Except.ok ((a0 :: args0).map truthy_text, 0, (a0 :: args0).length) := by
      have h := get_arglist_loop_plain (a0 :: args0) [call] (fn :: rest) [] 0 rfl hplain
      simpa [get_arglist] using h
    have hfnidx : pyIndex (call :: ((a0 :: args0) ++ fn :: rest))
        ((a0 :: args0).length + 1) = Except.ok fn := by
      rw [pyIndex_cons_succ]
      exact pyIndex_append_length (a0 :: args0) fn rest
    have h1 : pyIndex (call :: ((a0 :: args0) ++ fn :: rest)) 1 = Except.ok a0 := rfl
    have hm := hmf a0 rfl
    simp only [extended_format_CALL_FUNCTION, pyIndex_zero, hn, pyValAsInt]
    rw [harg]
    simp only [ne_eq, not_true_eq_false, if_false, ite_false, hfnidx, hfn, if_true,
      ite_true, h1, hm]

/-- C4 (counterexample): the argument order is *not* restored to source
order for every bytecode version the table serves.  With the version set to
(3, 4) — the era the base table is written for — the collected (reversed)
order is emitted unchanged: the call of `f` on `a` then `b` prints as
`f(b, a)`, not `f(a, b)`. -/
theorem c4_counterexample :
    extended_format_CALL_FUNCTION opc34 [callI, argB, argA, fnF]
      = Except.ok ("f(b, a)", Option.some 0)
    ∧ ("f(b, a)" : String) ≠ "f(a, b)" := by
  constructor
  · have h := call_function_general opc34 callI fnF [argB, argA] []
      rfl (by simp) (by decide)
      (by intro a ha; simp at ha; subst ha; decide) (by decide)
    show extended_format_CALL_FUNCTION opc34 (callI :: ([argB, argA] ++ fnF :: []))
      = Except.ok ("f(b, a)", Option.some 0)
    rw [h]
    rfl
  · decide

/-- C4 (amended): for bytecode versions at least (3, 6), when all `N`
declared arguments resolve as plain pure-value-producers and the callee is a
pure-value-producer, the reversal during collection and the re-reversal
before templating cancel and the output is `callee(a1, …, aN)` in source
order (window order reversed); for older versions the list is *not*
re-reversed and the collected order is emitted. -/
theorem c4_amended_call_roundtrip (opc : Opc) (call fn : Instruction)
    (args rest : List Instruction)
    (hn : call.argval = PyVal.int (args.length : Int))
    (hpos : args ≠ [])
    (hplain : ∀ a ∈ args, a.start_offset = Option.none ∧ a.is_jump_target = false)
    (hmf : ∀ a, args.get? 0 = Option.some a → a.opname ≠ "MAKE_FUNCTION")
    (hfn : fn.opcode ∈ opc.operator_set)
    (hv : version_ge_36 opc.version_tuple = true) :
    extended_format_CALL_FUNCTION opc (call :: (args ++ fn :: rest))
      = Except.ok (truthy_text fn ++ "(" ++
          String.intercalate ", " (args.map truthy_text).reverse ++ ")",
          Option.some fn.offset) := by
  rw [call_function_general opc call fn args rest hn hpos hplain hmf hfn]
  simp [hv]

/-- Witness for the amended C4: at version (3, 6) the same window prints in
source order `f(a, b)`. -/
theorem c4_witness :
    extended_format_CALL_FUNCTION opcT [callI, argB, argA, fnF]
      = Except.ok ("f(a, b)", Option.some 0) := by
  have h := c4_amended_call_roundtrip opcT callI fnF [argB, argA] []
    rfl (by simp) (by decide)
    (by intro a ha; simp at ha; subst ha; decide) (by decide) (by decide)
  show extended_format_CALL_FUNCTION opcT (callI :: ([argB, argA] ++ fnF :: []))
    = Except.ok ("f(a, b)", Option.some 0)
  rw [h]
  rfl
